import Mathlib

/-!
Verification of the trojan-go server core against its natural-language
specification.  Go byte strings are modelled as `List Nat` (each element a
byte value); Go's short-circuiting boolean operators are modelled with
`Bool` operations; fallible operations return `Option`/`Except` or Go-style
value-and-error pairs.  Components whose implementation is not part of the
source tree (the rewind buffer, the metadata parser, the per-user IP set)
are modelled from the specification text and marked as such in their doc
comments.
-/

/-- Bytes of a string literal, for writing Go string constants. -/
def strBytes (s : String) : List Nat :=
  s.data.map Char.toNat

/-- Go `strings.HasPrefix`: `p` starts with `q`. -/
def listStartsWith : List Nat → List Nat → Bool
  | _, [] => true
  | [], _ :: _ => false
  | a :: as, b :: bs => a == b && listStartsWith as bs

/-- Go `strings.HasSuffix(s, suf)`. -/
def listEndsWith (s suf : List Nat) : Bool :=
  suf.length ≤ s.length && s.drop (s.length - suf.length) == suf

/-- Go `strings.Contains(s, sub)`: `sub` occurs contiguously in `s`. -/
def listContains : List Nat → List Nat → Bool
  | [], sub => sub.isEmpty
  | a :: tail, sub => listStartsWith (a :: tail) sub || listContains tail sub

/-- `isDomainNameMatched` from `tunnel/tls/server.go`: SNI wildcard matching.
The prefix-length arithmetic is done in `Int` exactly as Go's `int`
subtraction behaves (it can go negative, and the `> 0` test guards the
slice, which Go's `&&` short-circuits past). -/
def isDomainNameMatched (pattern domainName : List Nat) : Bool :=
  if listStartsWith pattern (strBytes "*.") then
    let suffix := pattern.drop 2
    let domainPrefixLen : Int := (domainName.length : Int) - suffix.length - 1
    listEndsWith domainName suffix && decide (domainPrefixLen > 0) &&
      !(listContains (domainName.take domainPrefixLen.toNat) (strBytes "."))
  else pattern == domainName

/-- Modelled from the spec: `common.RewindConn` (its implementation is not
in the source tree; only its call sites are).  While buffering, every read
appends the consumed bytes to `buf`; a read whose requested size would
exceed the capacity fails without consuming; `Rewind()` makes subsequent
reads replay `buf` from the start before touching `rest`.  The state below
is a buffering rewind connection over the remaining underlying stream. -/
structure RWState where
  buf : List Nat
  rest : List Nat
  cap : Nat
deriving DecidableEq

/-- Modelled from the spec: one `io.ReadFull`-style read of exactly `k`
bytes through a buffering rewind connection.  Returns `none` on buffer
overflow (nothing consumed) or short read (available bytes consumed). -/
def rwReadFull (k : Nat) (st : RWState) : Option (List Nat) × RWState :=
  if st.buf.length + k > st.cap then (none, st)
  else if (st.rest.take k).length = k then
    (some (st.rest.take k), ⟨st.buf ++ st.rest.take k, st.rest.drop k, st.cap⟩)
  else (none, ⟨st.buf ++ st.rest.take k, st.rest.drop k, st.cap⟩)

/-- Byte sequence produced by `Rewind()` followed by reading to exhaustion:
the buffered bytes replayed in order, then the rest of the underlying
stream. -/
def replay (st : RWState) : List Nat :=
  st.buf ++ st.rest

/-- Address structure of `tunnel.Metadata` (fields as in the Go struct). -/
structure GoAddress where
  domainName : List Nat
  port : Nat
  ip : List Nat
  addressType : Nat
deriving DecidableEq

/-- Request metadata: command byte plus address. -/
structure GoMetadata where
  command : Nat
  address : GoAddress
deriving DecidableEq

/-- Trojan command byte CONNECT = 1 (value from the spec; the constant's
defining file is not in the source tree). -/
def Connect : Nat := 1

/-- Trojan command byte ASSOCIATE = 3 (value from the spec). -/
def Associate : Nat := 3

/-- Trojan command byte MUX = 0x7f (value from the spec). -/
def Mux : Nat := 0x7f

/-- Modelled from the spec: `tunnel.Metadata.ReadFrom` (not in the source
tree).  Reads `CMD:1 | ATYP:1 | DST.ADDR:var | DST.PORT:2`; ATYP 1 is a
4-byte IPv4, ATYP 3 a length-prefixed domain name, ATYP 4 a 16-byte IPv6,
anything else a parse error; the port is big-endian 16-bit.  This helper
is the final 2-byte port read shared by all three address types. -/
def readMetadataPort (cmd atyp : Nat) (domain ipBytes : List Nat) (st : RWState) :
    Option GoMetadata × RWState :=
  match rwReadFull 2 st with
  | (none, st') => (none, st')
  | (some portB, st') =>
    (some ⟨cmd, ⟨domain, portB.headD 0 * 256 + (portB.drop 1).headD 0, ipBytes, atyp⟩⟩, st')

/-- Modelled from the spec: the body of `tunnel.Metadata.ReadFrom` after the
command byte: ATYP, the variable-size address, then the 16-bit big-endian
port via `readMetadataPort`. -/
def readMetadata (st : RWState) : Option GoMetadata × RWState :=
  match rwReadFull 1 st with
  | (none, st1) => (none, st1)
  | (some cmdB, st1) =>
    match rwReadFull 1 st1 with
    | (none, st2) => (none, st2)
    | (some atypB, st2) =>
      if atypB.headD 0 = 1 then
        match rwReadFull 4 st2 with
        | (none, st3) => (none, st3)
        | (some ipB, st3) => readMetadataPort (cmdB.headD 0) (atypB.headD 0) [] ipB st3
      else if atypB.headD 0 = 3 then
        match rwReadFull 1 st2 with
        | (none, st3) => (none, st3)
        | (some lenB, st3) =>
          match rwReadFull (lenB.headD 0) st3 with
          | (none, st4) => (none, st4)
          | (some name, st4) => readMetadataPort (cmdB.headD 0) (atypB.headD 0) name [] st4
      else if atypB.headD 0 = 4 then
        match rwReadFull 16 st2 with
        | (none, st3) => (none, st3)
        | (some ipB, st3) => readMetadataPort (cmdB.headD 0) (atypB.headD 0) [] ipB st3
      else (none, st2)

/-- Errors of `InboundConn.Auth`, one per failing step of the algorithm. -/
inductive AuthErr where
  | readHash
  | invalidHash
  | splitHost
  | ipLimit
  | crlfAfterHash
  | badRequest
  | crlfAfterRequest
deriving DecidableEq

/-- Environment of one `Auth()` run: the authenticator's verdict on the
received hash, whether `net.SplitHostPort` succeeds on the remote address,
the resulting client IP, and the user's IP limit. -/
structure AuthEnv where
  validHash : List Nat → Bool
  splitOk : Bool
  ip : Nat
  ipLimit : Nat

/-- Modelled from the spec: the user's `AddIP` (the statistic package is
not in the source tree).  The IP set is bounded by `ipLimit` (0 means
unlimited); adding an already-present IP succeeds, adding a fresh one
succeeds only below the limit, otherwise `AddIP` returns false. -/
def AddIP (ip : Nat) (limit : Nat) (s : List Nat) : Bool × List Nat :=
  if ip ∈ s then (true, s)
  else if limit = 0 ∨ s.length < limit then (true, ip :: s)
  else (false, s)

/-- Modelled from the spec: the user's `DelIP`, invoked only by
`InboundConn.Close`. -/
def DelIP (ip : Nat) (s : List Nat) : List Nat :=
  s.erase ip

deriving instance DecidableEq for Except

/-- Result of one `Auth()` run: outcome, rewind-connection state after the
run, and the user's IP set after the run. -/
structure AuthResult where
  res : Except AuthErr GoMetadata
  st : RWState
  ipSet : List Nat
deriving DecidableEq

/-- `InboundConn.Auth` from the trojan server source: read 56 hash bytes
(single `Read`, failing unless exactly 56 arrive), authenticate the hash,
split the remote address, `AddIP`, read 2 bytes where the client puts CRLF,
parse the request metadata, read 2 more bytes where the client puts CRLF.
The two 2-byte reads only check that two bytes arrive; the values are not
inspected. -/
def Auth (env : AuthEnv) (st : RWState) (ipSet : List Nat) : AuthResult :=
  match rwReadFull 56 st with
  | (none, st1) => ⟨.error .readHash, st1, ipSet⟩
  | (some hash, st1) =>
    if env.validHash hash = false then ⟨.error .invalidHash, st1, ipSet⟩
    else if env.splitOk = false then ⟨.error .splitHost, st1, ipSet⟩
    else
      match AddIP env.ip env.ipLimit ipSet with
      | (false, s1) => ⟨.error .ipLimit, st1, s1⟩
      | (true, s1) =>
        match rwReadFull 2 st1 with
        | (none, st2) => ⟨.error .crlfAfterHash, st2, s1⟩
        | (some _, st2) =>
          match readMetadata st2 with
          | (none, st3) => ⟨.error .badRequest, st3, s1⟩
          | (some md, st3) =>
            match rwReadFull 2 st3 with
            | (none, st4) => ⟨.error .crlfAfterRequest, st4, s1⟩
            | (some _, st4) => ⟨.ok md, st4, s1⟩

/-- Bytes of the sentinel domain name `"MUX_CONN"`. -/
def muxConnBytes : List Nat := strBytes "MUX_CONN"

/-- Channels an authenticated trojan connection can be delivered to, or
dropped (logged, delivered nowhere). -/
inductive TrojanRoute where
  | muxChan
  | connChan
  | packetChan
  | dropped
deriving DecidableEq

/-- Command dispatch of the trojan server's accept goroutine (the `switch`
after a successful `Auth()`).  ASSOCIATE connections are wrapped in a
`PacketConn` before delivery to the packet channel, which is what
`packetChan` denotes here. -/
def dispatch (md : GoMetadata) : TrojanRoute :=
  if md.command = Connect then
    if md.address.domainName = muxConnBytes then .muxChan else .connChan
  else if md.command = Associate then .packetChan
  else if md.command = Mux then .muxChan
  else .dropped

/-- Observable outcome of the trojan server's per-connection goroutine:
either the connection is rewound and handed to the redirector aimed at the
fallback address (carrying exactly `bytesDelivered`), or it is routed to a
channel by command. -/
inductive HandleOutcome where
  | redirect (target : List Nat) (bytesDelivered : List Nat)
  | route (r : TrojanRoute)
deriving DecidableEq

/-- Final state of the trojan server's per-connection goroutine. -/
structure HandleResult where
  outcome : HandleOutcome
  ipSet : List Nat
deriving DecidableEq

/-- Per-connection goroutine of the trojan server's `acceptLoop`: wrap the
underlay connection in a rewind connection with buffer size 128, run
`Auth()`; on failure rewind and hand the connection to the redirector
targeted at the configured fallback address (the redirector then replays
the rewound stream); on success stop buffering and dispatch by command.
The failure path never calls `InboundConn.Close`, so `DelIP` is not
invoked and the IP set is whatever `Auth()` left. -/
def handleConn (env : AuthEnv) (redirAddr : List Nat) (input : List Nat)
    (ipSet : List Nat) : HandleResult :=
  match (Auth env ⟨[], input, 128⟩ ipSet).res with
  | .error _ =>
    ⟨.redirect redirAddr (replay (Auth env ⟨[], input, 128⟩ ipSet).st),
      (Auth env ⟨[], input, 128⟩ ipSet).ipSet⟩
  | .ok md => ⟨.route (dispatch md), (Auth env ⟨[], input, 128⟩ ipSet).ipSet⟩

/-- Hash of the test user: 56 bytes of `a` (0x61). -/
def hashC : List Nat := List.replicate 56 97

/-- Concrete Auth environment: the authenticator accepts exactly `hashC`,
the remote address splits fine, the client IP is `7`, no IP limit. -/
def envC : AuthEnv := ⟨fun h => h == hashC, true, 7, 0⟩

/-- Routing rule as the claim states it: CONNECT with domain name
`"MUX_CONN"` to the mux channel, any other CONNECT to the TCP connection
channel, ASSOCIATE to the packet channel, MUX to the mux channel, anything
else delivered to no channel. -/
def dispatchSpec (md : GoMetadata) : TrojanRoute :=
  if md.command = Connect ∧ md.address.domainName = muxConnBytes then .muxChan
  else if md.command = Connect then .connChan
  else if md.command = Associate then .packetChan
  else if md.command = Mux then .muxChan
  else .dropped

/-- Error text Go's crypto/tls produces for a non-TLS first record, the
exact string `acceptLoop` greps the handshake error for. -/
def tlsNotTLSPattern : List Nat :=
  strBytes "first record does not look like a TLS handshake"

/-- Observable handling of a failed TLS handshake: redirect the rewound
stream, write the static HTTP response then close, close the rewound
connection, or close the TLS connection with nothing written (the silent
branch for errors other than the non-TLS-record one). -/
inductive TLSFailAction where
  | redirect (target : List Nat) (replayed : List Nat)
  | writeRespAndClose (resp : List Nat)
  | closeConn
  | closeTLSSilently
deriving DecidableEq

/-- Handshake-error branch of the TLS server's `acceptLoop`
(`tunnel/tls/server.go`): when the error message contains
`tlsNotTLSPattern` the connection is rewound and — by the `switch` —
redirected to the fallback address if one is set, else written the static
HTTP response and closed if one is set, else just closed; any other
handshake error closes the TLS connection with no fallback and no bytes
written.  `preAuthBytes` is the rewound replay the redirector delivers. -/
def handshakeFailureAction (errMsg : List Nat) (fallbackAddress : Option (List Nat))
    (httpResp : Option (List Nat)) (preAuthBytes : List Nat) : TLSFailAction :=
  if listContains errMsg tlsNotTLSPattern then
    match fallbackAddress with
    | some fb => .redirect fb preAuthBytes
    | none =>
      match httpResp with
      | some resp => .writeRespAndClose resp
      | none => .closeConn
  else .closeTLSSilently

/-- Where the TLS server sends a connection after a successful handshake:
the trojan channel, the websocket channel, or the redirector aimed at the
fallback address; each branch carries the rewound decrypted stream. -/
inductive PostHSRoute where
  | trojanChan (delivered : List Nat)
  | wsChan (delivered : List Nat)
  | redirect (delivered : List Nat) (target : Option (List Nat))
deriving DecidableEq

/-- Post-handshake demultiplexing of the TLS server's `acceptLoop`: the
decrypted stream is peeked as an HTTP request, rewound (every branch gets
the stream from byte 0), and routed on the parse result and the `nextHTTP`
flag. -/
def postHandshakeRoute (parseOk : Bool) (nextHTTP : Int)
    (fallbackAddress : Option (List Nat)) (decrypted : List Nat) : PostHSRoute :=
  if parseOk = false then .trojanChan decrypted
  else if nextHTTP ≠ 1 then .redirect decrypted fallbackAddress
  else .wsChan decrypted

/-- Effect of `Server.AcceptConn` (tls) on the `nextHTTP` flag: a WebSocket
overlay stores 1; any other overlay leaves it unchanged. -/
def acceptConnNextHTTP (overlayIsWebsocket : Bool) (nextHTTP : Int) : Int :=
  if overlayIsWebsocket then 1 else nextHTTP

/-- ASCII lower-casing of one byte, the fragment of Go `strings.ToLower`
relevant to the `Upgrade` header comparison. -/
def toLowerByte (b : Nat) : Nat :=
  if 65 ≤ b ∧ b ≤ 90 then b + 32 else b

/-- Go `strings.ToLower` on a byte string (ASCII range). -/
def goToLower (s : List Nat) : List Nat :=
  s.map toLowerByte

/-- The two fields of the parsed HTTP request that the websocket server's
`AcceptConn` inspects: `req.Header.Get("Upgrade")` and `req.URL.Path`. -/
structure WSRequestInfo where
  upgradeHeader : List Nat
  path : List Nat
deriving DecidableEq

/-- Outcome of the websocket server's `AcceptConn` checks: redirect the raw
(never-buffered) connection, redirect the rewound connection carrying the
replayed pre-read bytes, or proceed to the upgrade handshake.  The two
redirect outcomes are accompanied by an error return from `AcceptConn`. -/
inductive WSAcceptOutcome where
  | redirectRaw (target : List Nat)
  | redirectRewound (target : List Nat) (replayed : List Nat)
  | proceedHandshake
deriving DecidableEq

/-- Whether the outcome makes `AcceptConn` return an error at this stage
(the handshake that follows `proceedHandshake` can still fail later). -/
def wsAcceptIsError : WSAcceptOutcome → Bool
  | .proceedHandshake => false
  | _ => true

/-- Check sequence of the websocket `Server.AcceptConn`: if the feature is
disabled the connection is redirected as-is; otherwise the request is
peeked through a rewind connection; a failed HTTP parse, a lower-cased
`Upgrade` header different from "websocket", or a path different from the
configured one each rewinds and redirects; only a request passing both
checks proceeds to the upgrade handshake. -/
def wsAcceptConnCheck (enabled : Bool) (redirAddr : List Nat)
    (parse : Option WSRequestInfo) (cfgPath : List Nat) (preBytes : List Nat) :
    WSAcceptOutcome :=
  if enabled = false then .redirectRaw redirAddr
  else
    match parse with
    | none => .redirectRewound redirAddr preBytes
    | some req =>
      if goToLower req.upgradeHeader ≠ strBytes "websocket" ∨ req.path ≠ cfgPath then
        .redirectRewound redirAddr preBytes
      else .proceedHandshake

/-- Go-style result pair of `x509.DecryptPEMBlock`: the decrypted bytes and
the error value (`none` meaning success). -/
structure GoPEMDecrypt where
  plaintext : List Nat
  err : Option (List Nat)
deriving DecidableEq

/-- Password branch of `loadKeyPair` (`tunnel/tls/server.go`): after
`pem.Decode` yields a key block, the source tests `if err == nil` on the
`DecryptPEMBlock` error and returns the error "failed to decrypt key" in
that case — i.e. when decryption succeeded — and otherwise continues,
feeding the plaintext of the failed call into the rest of the pipeline
(cert decode, `X509KeyPair`, leaf parse), abstracted here as `rest`. -/
def loadKeyPairEncrypted (keyBlock : Option (List Nat)) (decrypt : GoPEMDecrypt)
    (rest : List Nat → Except (List Nat) Nat) : Except (List Nat) Nat :=
  match keyBlock with
  | none => .error (strBytes "failed to decode key file")
  | some _ =>
    if decrypt.err = none then .error (strBytes "failed to decrypt key")
    else rest decrypt.plaintext

/-- How an accept loop reacts to an `AcceptConn`/`Accept` error, keyed on
whether the server is shutting down (context cancelled). -/
inductive AcceptErrorBehavior where
  | exitLoopQuietly
  | fatalExitProcess
  | logAndContinue
  | logSleepStopLoop
deriving DecidableEq

/-- TLS `acceptLoop` error branch (`tunnel/tls/server.go`): inside shutdown
the loop returns quietly; outside shutdown it calls `log.Fatal`, which
exits the process. -/
def tlsAcceptLoopOnAcceptError (shutdown : Bool) : AcceptErrorBehavior :=
  if shutdown then .exitLoopQuietly else .fatalExitProcess

/-- Trojan `acceptLoop` error branch: logs the error and, outside shutdown,
continues accepting. -/
def trojanAcceptLoopOnAcceptError (shutdown : Bool) : AcceptErrorBehavior :=
  if shutdown then .exitLoopQuietly else .logAndContinue

/-- Transport `acceptLoop` error branch: logs the error, sleeps 100ms and
stops the loop (the process stays alive). -/
def transportAcceptLoopOnAcceptError (shutdown : Bool) : AcceptErrorBehavior :=
  if shutdown then .exitLoopQuietly else .logSleepStopLoop

/-- Mux `acceptConnWorker` error branch: logs at debug and continues. -/
def muxAcceptWorkerOnAcceptError (shutdown : Bool) : AcceptErrorBehavior :=
  if shutdown then .exitLoopQuietly else .logAndContinue

/-- Proxy relay loops (`proxy/proxy.go`) on `accept_conn`/`accept_packet`
errors: log and continue outside shutdown. -/
def proxyRelayOnAcceptError (shutdown : Bool) : AcceptErrorBehavior :=
  if shutdown then .exitLoopQuietly else .logAndContinue

/-- What `AcceptPacket` does on each server: panic, return a "not
supported" error, or block on the packet channel (packets supported). -/
inductive AcceptPacketBehavior where
  | panics
  | errorReturn
  | channelReceive
deriving DecidableEq

/-- `Server.AcceptPacket` (tls) is `panic("not supported")`. -/
def tlsAcceptPacket : AcceptPacketBehavior := .panics

/-- `Server.AcceptPacket` (transport) is `panic("not supported")`. -/
def transportAcceptPacket : AcceptPacketBehavior := .panics

/-- `Server.AcceptPacket` (mux) is `panic("not supported")`. -/
def muxAcceptPacket : AcceptPacketBehavior := .panics

/-- `Server.AcceptPacket` (websocket) returns the error "not supported". -/
def websocketAcceptPacket : AcceptPacketBehavior := .errorReturn

/-- `Server.AcceptPacket` (trojan) receives from the packet channel. -/
def trojanAcceptPacket : AcceptPacketBehavior := .channelReceive

theorem listStartsWith_iff (s p : List Nat) :
    listStartsWith s p = true ↔ ∃ t, s = p ++ t := by
  induction p generalizing s with
  | nil => simp [listStartsWith]
  | cons b bs ih =>
    cases s with
    | nil => simp [listStartsWith]
    | cons a as =>
      simp only [listStartsWith, Bool.and_eq_true, beq_iff_eq, ih]
      constructor
      · rintro ⟨rfl, t, rfl⟩
        exact ⟨t, rfl⟩
      · rintro ⟨t, h⟩
        simp only [List.cons_append, List.cons.injEq] at h
        exact ⟨h.1, t, h.2⟩

theorem listEndsWith_iff (s suf : List Nat) :
    listEndsWith s suf = true ↔ ∃ t, s = t ++ suf := by
  simp only [listEndsWith, Bool.and_eq_true, decide_eq_true_eq, beq_iff_eq]
  constructor
  · rintro ⟨hle, hdrop⟩
    refine ⟨s.take (s.length - suf.length), ?_⟩
    conv_lhs => rw [← List.take_append_drop (s.length - suf.length) s]
    rw [hdrop]
  · rintro ⟨t, rfl⟩
    constructor
    · simp
    · have : (t ++ suf).length - suf.length = t.length := by simp
      rw [this, List.drop_left]

theorem listContains_singleton (s : List Nat) (c : Nat) :
    listContains s [c] = true ↔ c ∈ s := by
  induction s with
  | nil => simp [listContains]
  | cons a as ih =>
    rw [listContains]
    simp only [listStartsWith, Bool.or_eq_true, Bool.and_eq_true, beq_iff_eq, ih, List.mem_cons]
    constructor
    · rintro (⟨rfl, _⟩ | h)
      · exact Or.inl rfl
      · exact Or.inr h
    · rintro (rfl | h)
      · exact Or.inl ⟨rfl, trivial⟩
      · exact Or.inr h

theorem listContains_singleton_false (s : List Nat) (c : Nat) :
    (listContains s [c] = false) ↔ c ∉ s := by
  constructor
  · intro h hc
    rw [← listContains_singleton] at hc
    rw [h] at hc
    exact Bool.false_ne_true hc
  · intro h
    cases hb : listContains s [c] with
    | false => rfl
    | true => exact absurd ((listContains_singleton s c).mp hb) h

theorem isDomainNameMatched_wildcard_iff (suffix domainName : List Nat) :
    isDomainNameMatched (strBytes "*." ++ suffix) domainName = true ↔
      ((∃ t, domainName = t ++ suffix) ∧ suffix.length + 2 ≤ domainName.length ∧
        46 ∉ domainName.take (domainName.length - suffix.length - 1)) := by
  have hpre : listStartsWith (strBytes "*." ++ suffix) (strBytes "*.") = true := by
    simp [strBytes, listStartsWith]
  have hdrop : (strBytes "*." ++ suffix).drop 2 = suffix := rfl
  have hdot : strBytes "." = [46] := rfl
  simp only [isDomainNameMatched, hpre, if_true, hdrop, hdot]
  have htn : ((domainName.length : Int) - (suffix.length : Int) - 1).toNat =
      domainName.length - suffix.length - 1 := by omega
  simp only [Bool.and_eq_true, listEndsWith_iff, decide_eq_true_eq, htn]
  constructor
  · rintro ⟨⟨h1, h2⟩, h3⟩
    refine ⟨h1, by omega, ?_⟩
    exact (listContains_singleton_false _ _).mp (by simpa using h3)
  · rintro ⟨h1, h2, h3⟩
    refine ⟨⟨h1, by omega⟩, ?_⟩
    simpa using (listContains_singleton_false _ _).mpr h3

/-- C5: the SNI matching function.  A wildcard pattern `"*." ++ suffix`
matches `domainName` iff `domainName` ends with `suffix`, has at least one
extra leading character before the separating position (so its length is at
least `suffix.length + 2`), and the extra leading part (everything before
the separator) contains no dot (byte 46); a non-wildcard pattern matches
exactly itself.  The four concrete examples from the spec are included. -/
theorem isDomainNameMatched_spec :
    (∀ suffix domainName : List Nat,
      isDomainNameMatched (strBytes "*." ++ suffix) domainName = true ↔
        ((∃ t, domainName = t ++ suffix) ∧ suffix.length + 2 ≤ domainName.length ∧
          46 ∉ domainName.take (domainName.length - suffix.length - 1))) ∧
    (∀ pattern domainName : List Nat,
      listStartsWith pattern (strBytes "*.") = false →
      (isDomainNameMatched pattern domainName = true ↔ pattern = domainName)) ∧
    isDomainNameMatched (strBytes "*.example.com") (strBytes "a.example.com") = true ∧
    isDomainNameMatched (strBytes "*.example.com") (strBytes "example.com") = false ∧
    isDomainNameMatched (strBytes "*.example.com") (strBytes "b.a.example.com") = false ∧
    isDomainNameMatched (strBytes "example.com") (strBytes "example.com") = true := by
  refine ⟨isDomainNameMatched_wildcard_iff, ?_, by decide, by decide, by decide, by decide⟩
  intro pattern domainName h
  simp [isDomainNameMatched, h]

/-- C5 witness: the theorem applied at concrete inputs, including the
hypothesis-bearing non-wildcard branch at pattern `"example.com"`. -/
theorem isDomainNameMatched_spec_witness :
    isDomainNameMatched (strBytes "example.com") (strBytes "example.com") = true ∧
    isDomainNameMatched (strBytes "*.example.com") (strBytes "a.example.com") = true := by
  refine ⟨?_, isDomainNameMatched_spec.2.2.1⟩
  exact (isDomainNameMatched_spec.2.1 (strBytes "example.com") (strBytes "example.com")
    (by decide)).mpr rfl

theorem rwReadFull_replay (k : Nat) (st : RWState) :
    replay (rwReadFull k st).2 = replay st := by
  unfold rwReadFull replay
  split
  · rfl
  · split <;> simp

theorem readMetadataPort_replay (cmd atyp : Nat) (domain ipBytes : List Nat) (st : RWState) :
    replay (readMetadataPort cmd atyp domain ipBytes st).2 = replay st := by
  unfold readMetadataPort
  cases hq : rwReadFull 2 st with
  | mk o st' =>
    have h := rwReadFull_replay 2 st
    rw [hq] at h
    cases o <;> simpa using h

theorem readMetadata_replay (st : RWState) :
    replay (readMetadata st).2 = replay st := by
  unfold readMetadata
  split
  · rename_i st1 heq1
    have h1 : replay st1 = replay st := by
      have h := rwReadFull_replay 1 st; rw [heq1] at h; exact h
    exact h1
  · rename_i cmdB st1 heq1
    have h1 : replay st1 = replay st := by
      have h := rwReadFull_replay 1 st; rw [heq1] at h; exact h
    split
    · rename_i st2 heq2
      have h2 : replay st2 = replay st1 := by
        have h := rwReadFull_replay 1 st1; rw [heq2] at h; exact h
      exact h2.trans h1
    · rename_i atypB st2 heq2
      have h2 : replay st2 = replay st1 := by
        have h := rwReadFull_replay 1 st1; rw [heq2] at h; exact h
      split
      · split
        · rename_i st3 heq3
          have h3 : replay st3 = replay st2 := by
            have h := rwReadFull_replay 4 st2; rw [heq3] at h; exact h
          exact h3.trans (h2.trans h1)
        · rename_i ipB st3 heq3
          have h3 : replay st3 = replay st2 := by
            have h := rwReadFull_replay 4 st2; rw [heq3] at h; exact h
          exact (readMetadataPort_replay (cmdB.headD 0) (atypB.headD 0) [] ipB st3).trans
            (h3.trans (h2.trans h1))
      · split
        · split
          · rename_i st3 heq3
            have h3 : replay st3 = replay st2 := by
              have h := rwReadFull_replay 1 st2; rw [heq3] at h; exact h
            exact h3.trans (h2.trans h1)
          · rename_i lenB st3 heq3
            have h3 : replay st3 = replay st2 := by
              have h := rwReadFull_replay 1 st2; rw [heq3] at h; exact h
            split
            · rename_i st4 heq4
              have h4 : replay st4 = replay st3 := by
                have h := rwReadFull_replay (lenB.headD 0) st3; rw [heq4] at h; exact h
              exact h4.trans (h3.trans (h2.trans h1))
            · rename_i name st4 heq4
              have h4 : replay st4 = replay st3 := by
                have h := rwReadFull_replay (lenB.headD 0) st3; rw [heq4] at h; exact h
              exact (readMetadataPort_replay (cmdB.headD 0) (atypB.headD 0) name [] st4).trans
                (h4.trans (h3.trans (h2.trans h1)))
        · split
          · split
            · rename_i st3 heq3
              have h3 : replay st3 = replay st2 := by
                have h := rwReadFull_replay 16 st2; rw [heq3] at h; exact h
              exact h3.trans (h2.trans h1)
            · rename_i ipB st3 heq3
              have h3 : replay st3 = replay st2 := by
                have h := rwReadFull_replay 16 st2; rw [heq3] at h; exact h
              exact (readMetadataPort_replay (cmdB.headD 0) (atypB.headD 0) [] ipB st3).trans
                (h3.trans (h2.trans h1))
          · exact h2.trans h1

theorem Auth_replay (env : AuthEnv) (st : RWState) (ipSet : List Nat) :
    replay (Auth env st ipSet).st = replay st := by
  unfold Auth
  split
  · rename_i st1 heq1
    have h1 : replay st1 = replay st := by
      have h := rwReadFull_replay 56 st; rw [heq1] at h; exact h
    exact h1
  · rename_i hash st1 heq1
    have h1 : replay st1 = replay st := by
      have h := rwReadFull_replay 56 st; rw [heq1] at h; exact h
    split
    · exact h1
    · split
      · exact h1
      · split
        · exact h1
        · split
          · rename_i st2 heq2
            have h2 : replay st2 = replay st1 := by
              have h := rwReadFull_replay 2 st1; rw [heq2] at h; exact h
            exact h2.trans h1
          · rename_i crlfB st2 heq2
            have h2 : replay st2 = replay st1 := by
              have h := rwReadFull_replay 2 st1; rw [heq2] at h; exact h
            split
            · rename_i st3 heq3
              have h3 : replay st3 = replay st2 := by
                have h := readMetadata_replay st2; rw [heq3] at h; exact h
              exact h3.trans (h2.trans h1)
            · rename_i md st3 heq3
              have h3 : replay st3 = replay st2 := by
                have h := readMetadata_replay st2; rw [heq3] at h; exact h
              split
              · rename_i st4 heq4
                have h4 : replay st4 = replay st3 := by
                  have h := rwReadFull_replay 2 st3; rw [heq4] at h; exact h
                exact h4.trans (h3.trans (h2.trans h1))
              · rename_i pl st4 heq4
                have h4 : replay st4 = replay st3 := by
                  have h := rwReadFull_replay 2 st3; rw [heq4] at h; exact h
                exact h4.trans (h3.trans (h2.trans h1))

theorem AddIP_true_mem {ip lim : Nat} {s s' : List Nat}
    (h : AddIP ip lim s = (true, s')) : ip ∈ s' := by
  unfold AddIP at h
  split at h
  · rename_i hmem
    simp only [Prod.mk.injEq] at h
    exact h.2 ▸ hmem
  · split at h
    · simp only [Prod.mk.injEq] at h
      exact h.2 ▸ List.mem_cons_self ip s
    · simp at h

theorem Auth_late_error_ip_mem (env : AuthEnv) (st : RWState) (ipSet : List Nat)
    (h : (Auth env st ipSet).res = .error .crlfAfterHash ∨
         (Auth env st ipSet).res = .error .badRequest ∨
         (Auth env st ipSet).res = .error .crlfAfterRequest) :
    env.ip ∈ (Auth env st ipSet).ipSet := by
  revert h
  unfold Auth
  split
  · intro h; simp at h
  · split
    · intro h; simp at h
    · split
      · intro h; simp at h
      · split
        · intro h; simp at h
        · rename_i s1 heq
          split
          · intro h
            exact AddIP_true_mem heq
          · split
            · intro h
              exact AddIP_true_mem heq
            · split
              · intro h
                exact AddIP_true_mem heq
              · intro h; simp at h

/-- C1: whenever `Auth()` returns an error, the per-connection goroutine of
the trojan server rewinds the pre-auth stream and hands it to the
redirector targeted at the configured fallback address, and the byte
sequence delivered there is, in order, exactly the bytes the client sent. -/
theorem trojan_auth_failure_redirects_original_bytes (env : AuthEnv)
    (redirAddr input ipSet : List Nat) (e : AuthErr)
    (h : (Auth env ⟨[], input, 128⟩ ipSet).res = .error e) :
    (handleConn env redirAddr input ipSet).outcome = .redirect redirAddr input := by
  have hrep : replay (Auth env ⟨[], input, 128⟩ ipSet).st = input := by
    have h2 := Auth_replay env ⟨[], input, 128⟩ ipSet
    simpa [replay] using h2
  unfold handleConn
  split
  · simp [hrep]
  · rename_i md heq
    rw [heq] at h
    exact Except.noConfusion h

/-- C1 witness: a 3-byte garbage stream fails `Auth()` (short hash read)
and is replayed verbatim to the redirector. -/
theorem trojan_auth_failure_redirects_original_bytes_witness :
    (Auth envC ⟨[], [1, 2, 3], 128⟩ []).res = .error .readHash ∧
    (handleConn envC [9] [1, 2, 3] []).outcome = .redirect [9] [1, 2, 3] := by
  have h : (Auth envC ⟨[], [1, 2, 3], 128⟩ []).res = .error .readHash := by decide
  exact ⟨h, trojan_auth_failure_redirects_original_bytes envC [9] [1, 2, 3] [] .readHash h⟩

/-- C2 counterexample: a connection whose two framing byte pairs are
`{0,0}` and `{9,9}` — not CRLF — still authenticates successfully; `Auth()`
reads the two pairs with `io.ReadFull` but never compares their values, so
no protocol-violation error is produced. -/
theorem Auth_accepts_non_crlf_framing :
    (Auth envC
      ⟨[], hashC ++ [0, 0] ++ [1, 1, 10, 0, 0, 1, 0, 80] ++ [9, 9] ++ [99], 128⟩
      []).res = .ok ⟨1, ⟨[], 80, [10, 0, 0, 1], 1⟩⟩ := by decide

/-- C2 (amended): the two bytes read after the 56-byte hash and the two
read after the request header are consumed unchecked — `Auth()` succeeds
for every choice of the four byte values `a b c d`, failing at those steps
only when two bytes cannot be read at all. -/
theorem Auth_crlf_values_ignored (a b c d cmd x1 x2 x3 x4 p1 p2 : Nat)
    (payload : List Nat) :
    (Auth envC
      ⟨[], hashC ++ [a, b] ++ [cmd, 1, x1, x2, x3, x4, p1, p2] ++ [c, d] ++ payload, 128⟩
      []).res = .ok ⟨cmd, ⟨[], p1 * 256 + p2, [x1, x2, x3, x4], 1⟩⟩ := by
  rfl

/-- C10: `Auth()` is not atomic with respect to the user's IP set.  If the
run fails after the `AddIP` step (CRLF read failure, request-header parse
failure, or the final CRLF read failure), the client IP is still a member
of the IP set left by the per-connection goroutine, and that goroutine's
failure path leaves the set exactly as `Auth()` left it — `DelIP` is only
ever invoked by `InboundConn.Close`, which the redirect path never calls. -/
theorem Auth_failure_ip_not_removed (env : AuthEnv) (redirAddr input ipSet : List Nat)
    (h : (Auth env ⟨[], input, 128⟩ ipSet).res = .error .crlfAfterHash ∨
         (Auth env ⟨[], input, 128⟩ ipSet).res = .error .badRequest ∨
         (Auth env ⟨[], input, 128⟩ ipSet).res = .error .crlfAfterRequest) :
    env.ip ∈ (handleConn env redirAddr input ipSet).ipSet ∧
      (handleConn env redirAddr input ipSet).ipSet =
        (Auth env ⟨[], input, 128⟩ ipSet).ipSet := by
  have hs : (handleConn env redirAddr input ipSet).ipSet =
      (Auth env ⟨[], input, 128⟩ ipSet).ipSet := by
    unfold handleConn
    split <;> rfl
  refine ⟨?_, hs⟩
  rw [hs]
  exact Auth_late_error_ip_mem env ⟨[], input, 128⟩ ipSet h

/-- C10 witness: a stream that ends right after a valid hash fails at the
first CRLF read, and the client IP 7 is left in the IP set. -/
theorem Auth_failure_ip_not_removed_witness :
    7 ∈ (handleConn envC [9] hashC []).ipSet := by
  have h : (Auth envC ⟨[], hashC, 128⟩ []).res = .error .crlfAfterHash := by decide
  exact (Auth_failure_ip_not_removed envC [9] hashC [] (Or.inl h)).1

/-- C8: the trojan server's post-`Auth()` command dispatch agrees with the
claimed routing rule on every metadata value. -/
theorem dispatch_eq_dispatchSpec (md : GoMetadata) : dispatch md = dispatchSpec md := by
  unfold dispatch dispatchSpec
  by_cases h1 : md.command = Connect <;>
    by_cases h2 : md.address.domainName = muxConnBytes <;>
      simp [h1, h2]

/-- C3: a TLS handshake error leads to the rewind-and-fallback family of
actions iff its message contains the non-TLS-record text; with a fallback
configured the rewound stream is redirected there, with only a static
response configured that response is written and the connection closed,
and every other handshake error is a silent close with no fallback and no
bytes written. -/
theorem tls_handshake_failure_policy (errMsg preAuth : List Nat)
    (fallbackAddress httpResp : Option (List Nat)) :
    (listContains errMsg tlsNotTLSPattern = true ↔
      handshakeFailureAction errMsg fallbackAddress httpResp preAuth ≠ .closeTLSSilently) ∧
    (∀ fb, listContains errMsg tlsNotTLSPattern = true → fallbackAddress = some fb →
      handshakeFailureAction errMsg fallbackAddress httpResp preAuth = .redirect fb preAuth) ∧
    (∀ resp, listContains errMsg tlsNotTLSPattern = true → fallbackAddress = none →
      httpResp = some resp →
      handshakeFailureAction errMsg fallbackAddress httpResp preAuth =
        .writeRespAndClose resp) ∧
    (listContains errMsg tlsNotTLSPattern = false →
      handshakeFailureAction errMsg fallbackAddress httpResp preAuth = .closeTLSSilently) := by
  unfold handshakeFailureAction
  cases hc : listContains errMsg tlsNotTLSPattern <;>
    cases fallbackAddress <;> cases httpResp <;> simp

/-- C3 witness: the theorem applied to a message containing the non-TLS
text (redirect) and to one not containing it (silent close). -/
theorem tls_handshake_failure_policy_witness :
    handshakeFailureAction tlsNotTLSPattern (some [1]) none [5, 6] = .redirect [1] [5, 6] ∧
    handshakeFailureAction [0] (some [1]) none [5, 6] = .closeTLSSilently := by
  refine ⟨(tls_handshake_failure_policy tlsNotTLSPattern [5, 6] (some [1]) none).2.1
      [1] (by decide) rfl,
    (tls_handshake_failure_policy [0] [5, 6] (some [1]) none).2.2.2 (by decide)⟩

/-- C4: after a successful TLS handshake the peeked stream is routed three
ways — parse failure to the trojan channel, parse success with
`nextHTTP = 1` to the websocket channel, parse success otherwise to the
redirector aimed at the fallback — and a WebSocket tunnel calling
`AcceptConn` on this TLS server is what sets `nextHTTP` to 1. -/
theorem tls_post_handshake_demux (parseOk : Bool) (nextHTTP : Int)
    (fb : Option (List Nat)) (s : List Nat) :
    (parseOk = false → postHandshakeRoute parseOk nextHTTP fb s = .trojanChan s) ∧
    (parseOk = true → nextHTTP = 1 →
      postHandshakeRoute parseOk nextHTTP fb s = .wsChan s) ∧
    (parseOk = true → nextHTTP ≠ 1 →
      postHandshakeRoute parseOk nextHTTP fb s = .redirect s fb) ∧
    (∀ old, acceptConnNextHTTP true old = 1) := by
  refine ⟨fun h => by simp [postHandshakeRoute, h],
    fun h1 h2 => by simp [postHandshakeRoute, h1, h2],
    fun h1 h2 => by simp [postHandshakeRoute, h1, h2],
    fun old => rfl⟩

/-- C4 witness: the theorem applied to all three routes at concrete
inputs. -/
theorem tls_post_handshake_demux_witness :
    postHandshakeRoute false 0 none [1, 2] = .trojanChan [1, 2] ∧
    postHandshakeRoute true 1 none [1, 2] = .wsChan [1, 2] ∧
    postHandshakeRoute true 0 (some [3]) [1, 2] = .redirect [1, 2] (some [3]) := by
  exact ⟨(tls_post_handshake_demux false 0 none [1, 2]).1 rfl,
    (tls_post_handshake_demux true 1 none [1, 2]).2.1 rfl rfl,
    (tls_post_handshake_demux true 0 (some [3]) [1, 2]).2.2.1 rfl (by decide)⟩

/-- C7: while the websocket feature is disabled every connection is
redirected to the fallback and `AcceptConn` errors; when enabled, a parsed
request whose case-insensitive `Upgrade` header is not "websocket" or
whose path differs from the configured path is rewound and redirected with
an error, and exactly the requests passing both checks proceed to the
upgrade handshake. -/
theorem websocket_accept_policy (enabled : Bool) (redirAddr cfgPath preBytes : List Nat)
    (parse : Option WSRequestInfo) :
    (enabled = false →
      wsAcceptConnCheck enabled redirAddr parse cfgPath preBytes = .redirectRaw redirAddr ∧
      wsAcceptIsError (wsAcceptConnCheck enabled redirAddr parse cfgPath preBytes) = true) ∧
    (∀ req, enabled = true →
      ((goToLower req.upgradeHeader ≠ strBytes "websocket" ∨ req.path ≠ cfgPath) →
        wsAcceptConnCheck true redirAddr (some req) cfgPath preBytes =
          .redirectRewound redirAddr preBytes ∧
        wsAcceptIsError (wsAcceptConnCheck true redirAddr (some req) cfgPath preBytes) =
          true) ∧
      (goToLower req.upgradeHeader = strBytes "websocket" → req.path = cfgPath →
        wsAcceptConnCheck true redirAddr (some req) cfgPath preBytes =
          .proceedHandshake)) := by
  constructor
  · intro h
    simp [wsAcceptConnCheck, h, wsAcceptIsError]
  · intro req h1
    constructor
    · intro h3
      rcases h3 with h3 | h3 <;>
        exact ⟨by simp [wsAcceptConnCheck, h3],
          by simp [wsAcceptConnCheck, h3, wsAcceptIsError]⟩
    · intro h3 h4
      simp [wsAcceptConnCheck, h3, h4]

/-- C7 witness: the theorem applied to a disabled server, a wrong-path
request, and a valid request with a mixed-case `Upgrade` header. -/
theorem websocket_accept_policy_witness :
    wsAcceptConnCheck false [8] none (strBytes "/ws") [] = .redirectRaw [8] ∧
    wsAcceptConnCheck true [8] (some ⟨strBytes "WebSocket", strBytes "/bad"⟩)
      (strBytes "/ws") [7] = .redirectRewound [8] [7] ∧
    wsAcceptConnCheck true [8] (some ⟨strBytes "WebSocket", strBytes "/ws"⟩)
      (strBytes "/ws") [7] = .proceedHandshake := by
  refine ⟨((websocket_accept_policy false [8] (strBytes "/ws") [] none).1 rfl).1, ?_, ?_⟩
  · exact (((websocket_accept_policy true [8] (strBytes "/ws") [7]
      (some ⟨strBytes "WebSocket", strBytes "/bad"⟩)).2
      ⟨strBytes "WebSocket", strBytes "/bad"⟩ rfl).1 (Or.inr (by decide))).1
  · exact ((websocket_accept_policy true [8] (strBytes "/ws") [7]
      (some ⟨strBytes "WebSocket", strBytes "/ws"⟩)).2
      ⟨strBytes "WebSocket", strBytes "/ws"⟩ rfl).2 (by decide) rfl

/-- C6 (code bug): with a decodable key block and a `DecryptPEMBlock` call
that succeeds (`err = nil`, plaintext `[1,2,3]`), `loadKeyPair` returns the
error "failed to decrypt key"; with a call that fails it proceeds and
builds a key pair from the failed call's plaintext.  The `if err == nil`
check is inverted with respect to the claim (error only on actual
failure), as the spec's design note (b) records. -/
theorem loadKeyPair_decrypt_check_inverted :
    loadKeyPairEncrypted (some [0]) ⟨[1, 2, 3], none⟩ (fun _ => .ok 0) =
      .error (strBytes "failed to decrypt key") ∧
    loadKeyPairEncrypted (some [0]) ⟨[], some (strBytes "bad password")⟩ (fun _ => .ok 0) =
      .ok 0 :=
  ⟨rfl, rfl⟩

/-- C9 counterexample: the TLS server refutes the claim — it does not
support packets yet its `AcceptPacket` panics instead of signalling a
distinct error kind, and its accept loop reacts to an accept error outside
shutdown with `log.Fatal`, which terminates the process. -/
theorem tls_accept_path_crashes :
    tlsAcceptPacket = .panics ∧
    tlsAcceptLoopOnAcceptError false = .fatalExitProcess :=
  ⟨rfl, rfl⟩

/-- C9 (amended): accept errors outside shutdown are logged and handled
without terminating the process in the trojan, transport, mux and proxy
relay loops, and `AcceptPacket` signals "not supported" by an error return
on the websocket server and by channel receive (supported) on the trojan
server; the exceptions are the TLS accept loop, which exits the process
via `log.Fatal`, and the TLS, transport and mux `AcceptPacket`, which
panic. -/
theorem accept_error_behavior_by_server :
    trojanAcceptLoopOnAcceptError false = .logAndContinue ∧
    transportAcceptLoopOnAcceptError false = .logSleepStopLoop ∧
    muxAcceptWorkerOnAcceptError false = .logAndContinue ∧
    proxyRelayOnAcceptError false = .logAndContinue ∧
    websocketAcceptPacket = .errorReturn ∧
    trojanAcceptPacket = .channelReceive ∧
    tlsAcceptLoopOnAcceptError false = .fatalExitProcess ∧
    tlsAcceptPacket = .panics ∧
    transportAcceptPacket = .panics ∧
    muxAcceptPacket = .panics ∧
    tlsAcceptLoopOnAcceptError true = .exitLoopQuietly ∧
    trojanAcceptLoopOnAcceptError true = .exitLoopQuietly :=
  ⟨rfl, rfl, rfl, rfl, rfl, rfl, rfl, rfl, rfl, rfl, rfl, rfl⟩
